import Mathlib

/-!
Verification of the pulsar-synthesis engine (`src/crab_nebula.cpp`) against its
natural-language specification.  Machine floats are modelled as exact rationals
(`ℚ`); transcendental calls (`expf`, `cosf`, `sinf`) are modelled over `ℝ`.
Unsigned 32-bit state is modelled as `ℕ` with explicit reduction mod `2^32`.
-/

namespace Pulsar

/-- Table/bank sizes from the top of `crab_nebula.cpp`. -/
def kTableSize : ℕ := 2048

def kNumPulsarets : ℕ := 10

def kNumWindows : ℕ := 5

def kSampleBufferSize : ℤ := 48000

/-- C's `(int)` cast on a non-integral value: truncation toward zero. -/
def truncToZero (q : ℚ) : ℤ := if q < 0 then -⌊-q⌋ else ⌊q⌋

/-- `fastTanh` from `crab_nebula.cpp` lines 897–901:
`x2 = x*x; return x * (27 + x2) / (27 + 9*x2)`. -/
def fastTanh (x : ℚ) : ℚ :=
  let x2 := x * x
  x * (27 + x2) / (27 + 9 * x2)

theorem fastTanh_zero : fastTanh 0 = 0 := by
  simp [fastTanh]

theorem truncToZero_natCast (k : ℕ) : truncToZero (k : ℚ) = k := by
  have hk : ¬ ((k : ℚ) < 0) := not_lt.mpr (by positivity)
  simp [truncToZero, hk]

/-- Claim C2, counterexample: the claim asserts `|fastTanh x| < 1.2` for every
finite `x`, but at `x = 20` the code's rational function evaluates to
`8540/3627 ≈ 2.35`, which is not below `6/5 = 1.2`. -/
theorem C2_counterexample : ¬ |fastTanh 20| < 6/5 := by
  have h : fastTanh 20 = 8540/3627 := by norm_num [fastTanh]
  rw [h, abs_of_pos (by norm_num)]
  norm_num

/-- Claim C2 (amended): `fastTanh 0 = 0`, and `|fastTanh x| < 1.2` holds on the
stated accuracy range `|x| ≤ 3` (indeed `|fastTanh x| ≤ 1` there); the bound
fails for large `x` since `fastTanh` grows like `x/9`. -/
theorem C2_fastTanh_bound (x : ℚ) (hx : |x| ≤ 3) :
    fastTanh 0 = 0 ∧ |fastTanh x| < 6/5 := by
  refine ⟨fastTanh_zero, ?_⟩
  have ha : (0:ℚ) ≤ |x| := abs_nonneg x
  have hxx : x * x = |x| * |x| := (abs_mul_abs_self x).symm
  have hd : (0:ℚ) < 27 + 9 * (x * x) := by nlinarith [mul_self_nonneg x]
  have habs : |fastTanh x| = |x| * (27 + x * x) / (27 + 9 * (x * x)) := by
    show |x * (27 + x * x) / (27 + 9 * (x * x))| = _
    rw [abs_div, abs_mul, abs_of_pos hd, abs_of_pos (by nlinarith [mul_self_nonneg x] : (0:ℚ) < 27 + x * x)]
  rw [habs, div_lt_iff₀ hd]
  have h3 : (0:ℚ) ≤ 3 - |x| := by linarith
  nlinarith [mul_nonneg (mul_nonneg h3 h3) h3]

/-- Claim C2, witness: the amended bound instantiated at `x = 2`. -/
theorem C2_witness : |(2:ℚ)| ≤ 3 ∧ (fastTanh 0 = 0 ∧ |fastTanh 2| < 6/5) :=
  ⟨by norm_num, C2_fastTanh_bound 2 (by norm_num)⟩

/-- LCG advance `state = state * 1664525u + 1013904223u` on `uint32_t`
(line 1178 of `crab_nebula.cpp`), modelled as `ℕ` reduced mod `2^32`. -/
def lcgNext (s : ℕ) : ℕ := (s * 1664525 + 1013904223) % 2 ^ 32

/-- Uniform value derivation `(float)(prngState >> 8) / 16777216.0f`
(line 1179): the top 24 bits of the state scaled into `[0,1)`. -/
def stochasticValue (s : ℕ) : ℚ := ((s / 2 ^ 8 : ℕ) : ℚ) / 2 ^ 24

/-- Clamp-into-`[0,1]` pattern used for the mask CV amount (lines 1054–1056). -/
def clamp01 (x : ℚ) : ℚ := if x < 0 then 0 else if x > 1 then 1 else x

/-- Effective stochastic amount (lines 1053–1056 and 1176–1177): the clamped
Mask-CV-derived amount when the CV bus is connected, else the Mask Amount
parameter. -/
def effectiveMaskAmount (cvMaskAvg : Option ℚ) (maskAmount : ℚ) : ℚ :=
  match cvMaskAvg with
  | some avg => clamp01 (avg * (1 / 10))
  | none => maskAmount

/-- Stochastic decision (line 1180): gain 0 if the uniform value derived from
the already-advanced PRNG state `s` is below the effective amount, else 1. -/
def stochasticDecision (s : ℕ) (amount : ℚ) : ℚ :=
  if stochasticValue s < amount then 0 else 1

/-- Masking fields of `_pulsarDTC`: PRNG state, burst counter, and the three
per-formant mask targets. -/
structure MaskState where
  prng : ℕ
  burstCounter : ℕ
  targets : Fin 3 → ℚ

/-- One evaluation of the mask engine for one sample (lines 1169–1194): the
target update runs only when `maskMode > 0` and a new pulse fired this sample;
the single decision `maskGain` is then written to every formant index below
`formantCount`. -/
def maskEngineStep (maskMode : ℕ) (newPulse : Bool) (formantCount : ℕ)
    (effAmount : ℚ) (burstOn burstOff : ℕ) (st : MaskState) : MaskState :=
  if 0 < maskMode ∧ newPulse = true then
    let r : ℕ × ℕ × ℚ :=
      if maskMode = 1 then
        let s := lcgNext st.prng
        (s, st.burstCounter, stochasticDecision s effAmount)
      else if maskMode = 2 then
        let total := burstOn + burstOff
        if 0 < total then
          let c := (st.burstCounter + 1) % total
          (st.prng, c, if c < burstOn then (1 : ℚ) else 0)
        else (st.prng, st.burstCounter, (1 : ℚ))
      else (st.prng, st.burstCounter, (1 : ℚ))
    { prng := r.1, burstCounter := r.2.1,
      targets := fun f => if (f : ℕ) < formantCount then r.2.2 else st.targets f }
  else st

/-- DTC masking state as initialized in `construct` (lines 510–524):
`prngState = 48271`, `burstCounter = 0`, all mask targets 1. -/
def initMaskState : MaskState := ⟨48271, 0, fun _ => 1⟩

/-- Iterate the mask engine over `n` consecutive new-pulse trigger events. -/
def maskIterate (maskMode formantCount : ℕ) (effAmount : ℚ)
    (burstOn burstOff : ℕ) (st : MaskState) : ℕ → MaskState
  | 0 => st
  | n + 1 => maskEngineStep maskMode true formantCount effAmount burstOn burstOff
      (maskIterate maskMode formantCount effAmount burstOn burstOff st n)

/-- Burst-mode mask decision at the `n`-th trigger event (0-indexed), with
`burstOn = 4`, `burstOff = 4`, one formant, from the freshly constructed
state. -/
def burstDecision44 (n : ℕ) : ℚ :=
  (maskIterate 2 1 (1 / 2) 4 4 initMaskState (n + 1)).targets 0

/-- The gain pattern asserted by the claim: `[1,1,1,1,0,0,0,0]` repeating,
beginning with the very first trigger (trigger `n`, 0-indexed, sounds iff
`n % 8 < 4`). -/
def claimedBurstPattern (n : ℕ) : ℚ := if n % 8 < 4 then 1 else 0

/-- Claim C1, counterexample: at the fourth trigger (index 3) the claimed
pattern says the pulse sounds, but the code mutes it — the counter is
incremented before the comparison, so the first on-run has only three
pulses. -/
theorem C1_counterexample : burstDecision44 3 = 0 ∧ claimedBurstPattern 3 = 1 := by
  constructor
  · decide
  · decide

theorem maskIterate_burst_counter (n : ℕ) :
    (maskIterate 2 1 (1 / 2) 4 4 initMaskState n).burstCounter = n % 8 := by
  induction n with
  | zero => rfl
  | succ n ih =>
      show (maskEngineStep 2 true 1 (1 / 2) 4 4
        (maskIterate 2 1 (1 / 2) 4 4 initMaskState n)).burstCounter = _
      simp only [maskEngineStep]
      norm_num [ih]

/-- Claim C1 (amended): with `burstOn = burstOff = 4`, the burst counter is
incremented before the comparison, so the decision at trigger `n` (0-indexed)
is 1 exactly when `(n + 1) % 8 < 4`: three sounding pulses, then four muted,
then the repeating pattern `[1,1,1,1,0,0,0,0]` from the 8th trigger on. -/
theorem C1_burst_sequence (n : ℕ) :
    burstDecision44 n = if (n + 1) % 8 < 4 then 1 else 0 := by
  show (maskEngineStep 2 true 1 (1 / 2) 4 4
    (maskIterate 2 1 (1 / 2) 4 4 initMaskState n)).targets 0 = _
  simp only [maskEngineStep, maskIterate_burst_counter n]
  norm_num

/-- Sequence of stochastic mask decisions over `n` consecutive trigger events
starting from PRNG seed `seed` (per lines 1178–1180: the state is advanced
first, then the decision is derived from the new state). -/
def stochasticRun (seed : ℕ) (amount : ℚ) : ℕ → List ℚ
  | 0 => []
  | n + 1 => stochasticDecision (lcgNext seed) amount ::
      stochasticRun (lcgNext seed) amount n

/-- Claim C7: in Stochastic mode a new-pulse event advances the PRNG by
`state*1664525 + 1013904223 mod 2^32`, derives a uniform value in `[0,1)` from
the new state, sets every active formant's target to 0 iff that value is below
the effective amount (CV-derived when connected, the parameter otherwise), and
two runs from equal seeds and amounts give identical decision sequences. -/
theorem C7_stochastic_mask (st : MaskState) (formantCount : ℕ)
    (amt maskAmount avg : ℚ) (burstOn burstOff : ℕ) (f : Fin 3)
    (seed1 seed2 : ℕ) (amt1 amt2 : ℚ) (n : ℕ)
    (hf : (f : ℕ) < formantCount) (hs : seed1 = seed2) (ha : amt1 = amt2) :
    (maskEngineStep 1 true formantCount amt burstOn burstOff st).prng
        = (st.prng * 1664525 + 1013904223) % 2 ^ 32 ∧
    (0 ≤ stochasticValue (lcgNext st.prng) ∧ stochasticValue (lcgNext st.prng) < 1) ∧
    (maskEngineStep 1 true formantCount amt burstOn burstOff st).targets f
        = (if stochasticValue (lcgNext st.prng) < amt then 0 else 1) ∧
    effectiveMaskAmount (some avg) maskAmount = clamp01 (avg * (1 / 10)) ∧
    effectiveMaskAmount none maskAmount = maskAmount ∧
    stochasticRun seed1 amt1 n = stochasticRun seed2 amt2 n := by
  refine ⟨?_, ⟨?_, ?_⟩, ?_, rfl, rfl, ?_⟩
  · simp [maskEngineStep, lcgNext]
  · rw [stochasticValue]
    positivity
  · have hlt : lcgNext st.prng / 2 ^ 8 < 2 ^ 24 := by
      have hmod : lcgNext st.prng < 2 ^ 32 := Nat.mod_lt _ (by norm_num)
      omega
    have : ((lcgNext st.prng / 2 ^ 8 : ℕ) : ℚ) < 2 ^ 24 := by
      exact_mod_cast hlt
    rw [stochasticValue, div_lt_one (by norm_num)]
    exact this
  · simp [maskEngineStep, hf, stochasticDecision]
  · rw [hs, ha]

/-- Claim C7, witness: the stochastic-mode facts instantiated at the freshly
constructed state with one formant, amount `1/2`, and two three-trigger runs
from seed 7. -/
theorem C7_witness :
    (maskEngineStep 1 true 1 (1 / 2) 4 4 initMaskState).prng
        = (initMaskState.prng * 1664525 + 1013904223) % 2 ^ 32 ∧
    (0 ≤ stochasticValue (lcgNext initMaskState.prng) ∧
      stochasticValue (lcgNext initMaskState.prng) < 1) ∧
    (maskEngineStep 1 true 1 (1 / 2) 4 4 initMaskState).targets 0
        = (if stochasticValue (lcgNext initMaskState.prng) < 1 / 2 then 0 else 1) ∧
    effectiveMaskAmount (some 5) (3 / 10) = clamp01 (5 * (1 / 10)) ∧
    effectiveMaskAmount none (3 / 10) = 3 / 10 ∧
    stochasticRun 7 (1 / 2) 3 = stochasticRun 7 (1 / 2) 3 :=
  C7_stochastic_mask initMaskState 1 (1 / 2) (3 / 10) 5 4 4 0 7 7 (1 / 2) (1 / 2) 3
    (by decide) rfl rfl

/-- Claim C9: the mask engine mutates nothing between pulses (without a
new-pulse event the state is returned unchanged), and on a new-pulse event in
any active mask mode the single decision value is written to every active
formant, so afterwards all active formants' mask targets are equal. -/
theorem C9_one_decision_shared (maskMode formantCount : ℕ) (effAmount : ℚ)
    (burstOn burstOff : ℕ) (st : MaskState) (f g : Fin 3)
    (hf : (f : ℕ) < formantCount) (hg : (g : ℕ) < formantCount) :
    maskEngineStep maskMode false formantCount effAmount burstOn burstOff st = st ∧
    (0 < maskMode →
      (maskEngineStep maskMode true formantCount effAmount burstOn burstOff st).targets f
        = (maskEngineStep maskMode true formantCount effAmount burstOn burstOff st).targets g) := by
  constructor
  · simp [maskEngineStep]
  · intro hm
    simp [maskEngineStep, hm, hf, hg]

/-- Claim C9, witness: instantiated in Stochastic mode with two active
formants, at the freshly constructed state. -/
theorem C9_witness :
    maskEngineStep 1 false 2 (1 / 2) 4 4 initMaskState = initMaskState ∧
    (0 < 1 →
      (maskEngineStep 1 true 2 (1 / 2) 4 4 initMaskState).targets 0
        = (maskEngineStep 1 true 2 (1 / 2) 4 4 initMaskState).targets 1) :=
  C9_one_decision_shared 1 2 (1 / 2) 4 4 initMaskState 0 1 (by decide) (by decide)

/-- Phase-increment computation and clamp (lines 1155–1157):
`phaseInc = freqHz * (1/sr)`, clamped into `[0, 0.5]`. -/
def clampedPhaseInc (freqHz sr : ℚ) : ℚ :=
  if freqHz * (1 / sr) < 0 then 0
  else if freqHz * (1 / sr) > 1 / 2 then 1 / 2
  else freqHz * (1 / sr)

/-- Master-phase advance for one sample (lines 1159–1167): accumulate the
clamped increment; on reaching 1.0 subtract exactly 1.0 and raise the
new-pulse event. -/
def masterPhaseStep (phase freqHz sr : ℚ) : ℚ × Bool :=
  if phase + clampedPhaseInc freqHz sr ≥ 1
  then (phase + clampedPhaseInc freqHz sr - 1, true)
  else (phase + clampedPhaseInc freqHz sr, false)

/-- Claim C5: the per-sample phase increment is clamped into `[0, 0.5]`; from
any phase in `[0,1)` the phase after the sample is again in `[0,1)`, and the
new-pulse event fires exactly when the accumulated phase reached 1.0 (one
subtraction of 1.0, one event, per wrap). -/
theorem C5_phase_invariant (phase freqHz sr : ℚ) (h0 : 0 ≤ phase) (h1 : phase < 1) :
    (0 ≤ clampedPhaseInc freqHz sr ∧ clampedPhaseInc freqHz sr ≤ 1 / 2) ∧
    (0 ≤ (masterPhaseStep phase freqHz sr).1 ∧ (masterPhaseStep phase freqHz sr).1 < 1) ∧
    ((masterPhaseStep phase freqHz sr).2 = true ↔ 1 ≤ phase + clampedPhaseInc freqHz sr) := by
  have hb : 0 ≤ clampedPhaseInc freqHz sr ∧ clampedPhaseInc freqHz sr ≤ 1 / 2 := by
    rw [clampedPhaseInc]
    split_ifs with hneg hbig
    · norm_num
    · norm_num
    · push_neg at hneg hbig
      exact ⟨hneg, hbig⟩
  obtain ⟨hl, hu⟩ := hb
  refine ⟨⟨hl, hu⟩, ?_, ?_⟩
  · rw [masterPhaseStep]
    split_ifs with hw
    · show 0 ≤ phase + clampedPhaseInc freqHz sr - 1 ∧
        phase + clampedPhaseInc freqHz sr - 1 < 1
      constructor <;> linarith
    · show 0 ≤ phase + clampedPhaseInc freqHz sr ∧
        phase + clampedPhaseInc freqHz sr < 1
      exact ⟨by linarith, lt_of_not_ge hw⟩
  · rw [masterPhaseStep]
    split_ifs with hw
    · simpa using hw
    · simpa using hw

/-- Claim C5, witness: one sample at phase `3/4` and frequency `440` Hz at a
`48000` Hz sample rate. -/
theorem C5_witness :
    ((0:ℚ) ≤ 3 / 4 ∧ (3:ℚ) / 4 < 1) ∧
    ((0 ≤ clampedPhaseInc 440 48000 ∧ clampedPhaseInc 440 48000 ≤ 1 / 2) ∧
     (0 ≤ (masterPhaseStep (3 / 4) 440 48000).1 ∧ (masterPhaseStep (3 / 4) 440 48000).1 < 1) ∧
     ((masterPhaseStep (3 / 4) 440 48000).2 = true ↔
        1 ≤ 3 / 4 + clampedPhaseInc 440 48000)) :=
  ⟨⟨by norm_num, by norm_num⟩, C5_phase_invariant (3 / 4) 440 48000 (by norm_num) (by norm_num)⟩

/-- ASR envelope one-pole update for one sample (lines 1252–1254): the target
is 1 with the gate on, 0 with it off; the coefficient is the attack
coefficient with the gate on, the release coefficient with it off. -/
def envStep (attackCoeff releaseCoeff : ℚ) (gate : Bool) (env : ℚ) : ℚ :=
  (if gate then (1 : ℚ) else 0) +
    (if gate then attackCoeff else releaseCoeff) * (env - (if gate then (1 : ℚ) else 0))

/-- Envelope level after processing a sequence of per-sample gate values. -/
def envRun (attackCoeff releaseCoeff : ℚ) (env0 : ℚ) : List Bool → ℚ
  | [] => env0
  | g :: gs => envRun attackCoeff releaseCoeff (envStep attackCoeff releaseCoeff g env0) gs

theorem envStep_bounded (a r : ℚ) (ha : 0 < a) (ha1 : a < 1) (hr : 0 < r) (hr1 : r < 1)
    (g : Bool) (e : ℚ) (h0 : 0 ≤ e) (h1 : e ≤ 1) :
    0 ≤ envStep a r g e ∧ envStep a r g e ≤ 1 := by
  cases g <;> simp only [envStep, if_true, if_false, Bool.false_eq_true, ite_true, ite_false]
  · constructor <;> nlinarith
  · constructor <;> nlinarith

/-- Claim C6: with attack and release coefficients strictly inside `(0,1)` and
envelope targets in `{0,1}` as driven by the gate, the envelope level stays in
`[0,1]` after every sample, for any sequence of gate on/off values, from any
starting level in `[0,1]`. -/
theorem C6_envelope_bounded (a r : ℚ) (ha : 0 < a) (ha1 : a < 1) (hr : 0 < r) (hr1 : r < 1)
    (env0 : ℚ) (h0 : 0 ≤ env0) (h1 : env0 ≤ 1) (gates : List Bool) :
    0 ≤ envRun a r env0 gates ∧ envRun a r env0 gates ≤ 1 := by
  induction gates generalizing env0 with
  | nil => exact ⟨h0, h1⟩
  | cons g gs ih =>
      have h := envStep_bounded a r ha ha1 hr hr1 g env0 h0 h1
      exact ih _ h.1 h.2

/-- Claim C6, witness: attack `1/2`, release `3/4`, starting level `1/2`, over
the gate sequence on, off, on. -/
theorem C6_witness :
    ((0:ℚ) < 1 / 2 ∧ (1:ℚ) / 2 < 1 ∧ (0:ℚ) < 3 / 4 ∧ (3:ℚ) / 4 < 1) ∧
    (0 ≤ envRun (1 / 2) (3 / 4) (1 / 2) [true, false, true] ∧
      envRun (1 / 2) (3 / 4) (1 / 2) [true, false, true] ≤ 1) :=
  ⟨⟨by norm_num, by norm_num, by norm_num, by norm_num⟩,
    C6_envelope_bounded (1 / 2) (3 / 4) (by norm_num) (by norm_num) (by norm_num) (by norm_num)
      (1 / 2) (by norm_num) (by norm_num) [true, false, true]⟩

/-- Clamp of the reported frame count to the sample-buffer capacity
(`parameterChanged`, `kParamFile` case, lines 739–741). -/
def clampLoadedFrames (numFrames : ℤ) : ℤ :=
  if numFrames > kSampleBufferSize then kSampleBufferSize else numFrames

/-- Sample-buffer read index for the sample-based pulsaret (lines 1217–1221):
`samplePos = pulsaretPhase * (loadedFrames − 1) * sampleRateRatio`, truncated
to int, then clamped into `[0, loadedFrames − 2]`; the interpolation reads
cells `sIdx` and `sIdx + 1`. -/
def sampleReadIdx (pulsaretPhase ratio : ℚ) (loadedFrames : ℤ) : ℤ :=
  let samplePos := pulsaretPhase * ((loadedFrames : ℚ) - 1) * ratio
  let sIdx := truncToZero samplePos
  let sIdx2 := if sIdx < 0 then 0 else sIdx
  if sIdx2 ≥ loadedFrames - 1 then loadedFrames - 2 else sIdx2

/-- Guard for the sample-based branch (line 1214):
`useSample && sampleLoadedFrames >= 2`. -/
def sampleBranchTaken (useSample : Bool) (loadedFrames : ℤ) : Bool :=
  useSample && decide (2 ≤ loadedFrames)

/-- Claim C10: the sample branch runs only with at least 2 loaded frames; every
buffer index read by the interpolation (`sIdx` and `sIdx + 1`) lies within
`[0, loadedFrames − 1]`; and the loaded-frame count is clamped to the
48,000-frame capacity — for any pulsaret phase in `[0,1)` and rate ratio in
`[0.25, 4]`. -/
theorem C10_sample_read_safe (pulsaretPhase ratio : ℚ) (loadedFrames numFrames : ℤ)
    (hp0 : 0 ≤ pulsaretPhase) (hp1 : pulsaretPhase < 1)
    (hr0 : 1 / 4 ≤ ratio) (hr1 : ratio ≤ 4) (hf : 2 ≤ loadedFrames) :
    (∀ (u : Bool) (lf : ℤ), sampleBranchTaken u lf = true → 2 ≤ lf) ∧
    (0 ≤ sampleReadIdx pulsaretPhase ratio loadedFrames ∧
      sampleReadIdx pulsaretPhase ratio loadedFrames + 1 ≤ loadedFrames - 1) ∧
    clampLoadedFrames numFrames ≤ kSampleBufferSize := by
  refine ⟨?_, ?_, ?_⟩
  · intro u lf h
    simp only [sampleBranchTaken, Bool.and_eq_true, decide_eq_true_eq] at h
    exact h.2
  · simp only [sampleReadIdx]
    split_ifs <;> omega
  · rw [clampLoadedFrames]
    split_ifs with h
    · exact le_refl _
    · exact le_of_not_gt h

/-- Claim C10, witness: phase `9/10`, ratio `4`, 100 loaded frames, a reported
frame count of 60,000. -/
theorem C10_witness :
    ((0:ℚ) ≤ 9 / 10 ∧ (9:ℚ) / 10 < 1 ∧ (1:ℚ) / 4 ≤ 4 ∧ (4:ℚ) ≤ 4 ∧ (2:ℤ) ≤ 100) ∧
    ((∀ (u : Bool) (lf : ℤ), sampleBranchTaken u lf = true → 2 ≤ lf) ∧
     (0 ≤ sampleReadIdx (9 / 10) 4 100 ∧ sampleReadIdx (9 / 10) 4 100 + 1 ≤ 100 - 1) ∧
     clampLoadedFrames 60000 ≤ kSampleBufferSize) :=
  ⟨⟨by norm_num, by norm_num, by norm_num, by norm_num, by norm_num⟩,
    C10_sample_read_safe (9 / 10) 4 100 60000 (by norm_num) (by norm_num) (by norm_num)
      (by norm_num) (by norm_num)⟩

/-- `readTableLerp` (lines 858–866): linear interpolation between the two
table cells nearest the phase; the power-of-two bitmask wrap
`idx & (tableSize − 1)` is modelled as `idx mod tableSize`. -/
def readTableLerp (table : ℕ → ℚ) (tableSize : ℕ) (phase : ℚ) : ℚ :=
  let pos := phase * (tableSize : ℚ)
  let idx := truncToZero pos
  let frac := pos - (idx : ℚ)
  let i := (idx % (tableSize : ℤ)).toNat
  let i2 := ((idx + 1) % (tableSize : ℤ)).toNat
  table i + frac * (table i2 - table i)

/-- `readTableMorph` (lines 871–880): truncate the continuous index; if
`idx0 < 0` set `(idx0, frac) = (0, 0)`; if `idx0 ≥ kNumPulsarets − 1` set
`(idx0, frac) = (kNumPulsarets − 2, 1)`; then crossfade tables `idx0` and
`idx0 + 1` by `frac`. -/
def readTableMorph (tables : ℕ → ℕ → ℚ) (index phase : ℚ) : ℚ :=
  let idx0 : ℤ := truncToZero index
  let frac : ℚ := index - (idx0 : ℚ)
  let idx0a : ℤ := if idx0 < 0 then 0 else idx0
  let fraca : ℚ := if idx0 < 0 then 0 else frac
  let idx0b : ℤ := if idx0a ≥ (kNumPulsarets : ℤ) - 1 then (kNumPulsarets : ℤ) - 2 else idx0a
  let fracb : ℚ := if idx0a ≥ (kNumPulsarets : ℤ) - 1 then 1 else fraca
  let s0 := readTableLerp (tables idx0b.toNat) kTableSize phase
  let s1 := readTableLerp (tables (idx0b.toNat + 1)) kTableSize phase
  s0 + fracb * (s1 - s0)

/-- `readWindowMorph` (lines 884–893): same as `readTableMorph` but clamped to
the 5-entry window bank. -/
def readWindowMorph (tables : ℕ → ℕ → ℚ) (index phase : ℚ) : ℚ :=
  let idx0 : ℤ := truncToZero index
  let frac : ℚ := index - (idx0 : ℚ)
  let idx0a : ℤ := if idx0 < 0 then 0 else idx0
  let fraca : ℚ := if idx0 < 0 then 0 else frac
  let idx0b : ℤ := if idx0a ≥ (kNumWindows : ℤ) - 1 then (kNumWindows : ℤ) - 2 else idx0a
  let fracb : ℚ := if idx0a ≥ (kNumWindows : ℤ) - 1 then 1 else fraca
  let s0 := readTableLerp (tables idx0b.toNat) kTableSize phase
  let s1 := readTableLerp (tables (idx0b.toNat + 1)) kTableSize phase
  s0 + fracb * (s1 - s0)

/-- A concrete table bank for the counterexample: table `t` holds the constant
value `t` in every cell. -/
def constBank (t i : ℕ) : ℚ := (t : ℚ)

/-- Claim C3, counterexample: a morph index strictly between −1 and 0 is NOT
clamped to the bank boundary: C's `(int)` cast truncates `−1/2` to `0`, the
`idx0 < 0` clamp does not fire, and the lookup extrapolates with fractional
weight `−1/2`, returning `−1/2` on a bank whose table 0 is constant 0. -/
theorem C3_counterexample :
    readTableMorph constBank (-(1 / 2)) 0 = -(1 / 2) ∧
    readTableLerp (constBank 0) kTableSize 0 = 0 ∧
    readTableMorph constBank (-(1 / 2)) 0 ≠ readTableLerp (constBank 0) kTableSize 0 := by
  have ht : truncToZero (-(1 / 2) : ℚ) = 0 := by
    rw [truncToZero, if_pos (by norm_num)]
    norm_num
  have hlerp : ∀ t : ℕ, readTableLerp (constBank t) kTableSize 0 = t := by
    intro t
    norm_num [readTableLerp, truncToZero, constBank]
  have hm : readTableMorph constBank (-(1 / 2)) 0 = -(1 / 2) := by
    rw [readTableMorph]
    norm_num [ht, hlerp, kNumPulsarets]
  refine ⟨hm, hlerp 0, ?_⟩
  rw [hm, hlerp 0]
  norm_num

theorem truncToZero_of_nonneg (q : ℚ) (h : 0 ≤ q) : truncToZero q = ⌊q⌋ := by
  rw [truncToZero, if_neg (not_lt.mpr h)]

theorem truncToZero_neg (q : ℚ) (h : q ≤ -1) : truncToZero q < 0 := by
  rw [truncToZero, if_pos (by linarith)]
  have h1 : (1 : ℤ) ≤ ⌊-q⌋ := by
    rw [Int.le_floor]
    push_cast
    linarith
  omega

theorem truncToZero_neg_frac (q : ℚ) (h1 : -1 < q) (h2 : q < 0) : truncToZero q = 0 := by
  rw [truncToZero, if_pos h2]
  have hfl : ⌊-q⌋ = 0 := by
    rw [Int.floor_eq_zero_iff, Set.mem_Ico]
    constructor <;> linarith
  rw [hfl]
  norm_num

theorem readTableMorph_intIndex (tables : ℕ → ℕ → ℚ) (k : ℕ) (phase : ℚ)
    (hk : k < kNumPulsarets) :
    readTableMorph tables (k : ℚ) phase = readTableLerp (tables k) kTableSize phase := by
  rw [readTableMorph, truncToZero_natCast k]
  have hk0 : ¬ ((k : ℤ) < 0) := by omega
  rw [if_neg hk0, if_neg hk0]
  by_cases h9 : (k : ℤ) ≥ (kNumPulsarets : ℤ) - 1
  · have hk9 : k = 9 := by
      rw [kNumPulsarets] at h9 hk
      omega
    subst hk9
    rw [if_pos h9, if_pos h9]
    norm_num [kNumPulsarets]
    rfl
  · rw [if_neg h9, if_neg h9]
    simp

theorem readWindowMorph_intIndex (tables : ℕ → ℕ → ℚ) (k : ℕ) (phase : ℚ)
    (hk : k < kNumWindows) :
    readWindowMorph tables (k : ℚ) phase = readTableLerp (tables k) kTableSize phase := by
  rw [readWindowMorph, truncToZero_natCast k]
  have hk0 : ¬ ((k : ℤ) < 0) := by omega
  rw [if_neg hk0, if_neg hk0]
  by_cases h4 : (k : ℤ) ≥ (kNumWindows : ℤ) - 1
  · have hk4 : k = 4 := by
      rw [kNumWindows] at h4 hk
      omega
    subst hk4
    rw [if_pos h4, if_pos h4]
    norm_num [kNumWindows]
    rfl
  · rw [if_neg h4, if_neg h4]
    simp

theorem readTableMorph_clampLow (tables : ℕ → ℕ → ℚ) (index phase : ℚ) (h : index ≤ -1) :
    readTableMorph tables index phase = readTableLerp (tables 0) kTableSize phase := by
  have hneg := truncToZero_neg index h
  rw [readTableMorph, if_pos hneg, if_pos hneg]
  rw [if_neg (by norm_num [kNumPulsarets] : ¬ ((0 : ℤ) ≥ (kNumPulsarets : ℤ) - 1))]
  rw [if_neg (by norm_num [kNumPulsarets] : ¬ ((0 : ℤ) ≥ (kNumPulsarets : ℤ) - 1))]
  simp

theorem readWindowMorph_clampLow (tables : ℕ → ℕ → ℚ) (index phase : ℚ) (h : index ≤ -1) :
    readWindowMorph tables index phase = readTableLerp (tables 0) kTableSize phase := by
  have hneg := truncToZero_neg index h
  rw [readWindowMorph, if_pos hneg, if_pos hneg]
  rw [if_neg (by norm_num [kNumWindows] : ¬ ((0 : ℤ) ≥ (kNumWindows : ℤ) - 1))]
  rw [if_neg (by norm_num [kNumWindows] : ¬ ((0 : ℤ) ≥ (kNumWindows : ℤ) - 1))]
  simp

theorem readTableMorph_clampHigh (tables : ℕ → ℕ → ℚ) (index phase : ℚ)
    (h : (kNumPulsarets : ℚ) - 1 ≤ index) :
    readTableMorph tables index phase
      = readTableLerp (tables (kNumPulsarets - 1)) kTableSize phase := by
  rw [kNumPulsarets] at h
  push_cast at h
  have hfl : (9 : ℤ) ≤ ⌊index⌋ := by
    rw [Int.le_floor]
    push_cast
    linarith
  have htr : truncToZero index = ⌊index⌋ := truncToZero_of_nonneg index (by linarith)
  rw [readTableMorph, htr]
  rw [if_neg (by omega : ¬ (⌊index⌋ < 0)), if_neg (by omega : ¬ (⌊index⌋ < 0))]
  rw [if_pos (by rw [kNumPulsarets]; omega), if_pos (by rw [kNumPulsarets]; omega)]
  norm_num [kNumPulsarets]
  rfl

theorem readWindowMorph_clampHigh (tables : ℕ → ℕ → ℚ) (index phase : ℚ)
    (h : (kNumWindows : ℚ) - 1 ≤ index) :
    readWindowMorph tables index phase
      = readTableLerp (tables (kNumWindows - 1)) kTableSize phase := by
  rw [kNumWindows] at h
  push_cast at h
  have hfl : (4 : ℤ) ≤ ⌊index⌋ := by
    rw [Int.le_floor]
    push_cast
    linarith
  have htr : truncToZero index = ⌊index⌋ := truncToZero_of_nonneg index (by linarith)
  rw [readWindowMorph, htr]
  rw [if_neg (by omega : ¬ (⌊index⌋ < 0)), if_neg (by omega : ¬ (⌊index⌋ < 0))]
  rw [if_pos (by rw [kNumWindows]; omega), if_pos (by rw [kNumWindows]; omega)]
  norm_num [kNumWindows]
  rfl

theorem readTableMorph_extrapolates (tables : ℕ → ℕ → ℚ) (index phase : ℚ)
    (h1 : -1 < index) (h2 : index < 0) :
    readTableMorph tables index phase
      = readTableLerp (tables 0) kTableSize phase
        + index * (readTableLerp (tables 1) kTableSize phase
            - readTableLerp (tables 0) kTableSize phase) := by
  have htr := truncToZero_neg_frac index h1 h2
  rw [readTableMorph, htr]
  rw [if_neg (by omega : ¬ ((0 : ℤ) < 0)), if_neg (by omega : ¬ ((0 : ℤ) < 0))]
  rw [if_neg (by norm_num [kNumPulsarets] : ¬ ((0 : ℤ) ≥ (kNumPulsarets : ℤ) - 1))]
  rw [if_neg (by norm_num [kNumPulsarets] : ¬ ((0 : ℤ) ≥ (kNumPulsarets : ℤ) - 1))]
  norm_num

theorem readWindowMorph_extrapolates (tables : ℕ → ℕ → ℚ) (index phase : ℚ)
    (h1 : -1 < index) (h2 : index < 0) :
    readWindowMorph tables index phase
      = readTableLerp (tables 0) kTableSize phase
        + index * (readTableLerp (tables 1) kTableSize phase
            - readTableLerp (tables 0) kTableSize phase) := by
  have htr := truncToZero_neg_frac index h1 h2
  rw [readWindowMorph, htr]
  rw [if_neg (by omega : ¬ ((0 : ℤ) < 0)), if_neg (by omega : ¬ ((0 : ℤ) < 0))]
  rw [if_neg (by norm_num [kNumWindows] : ¬ ((0 : ℤ) ≥ (kNumWindows : ℤ) - 1))]
  rw [if_neg (by norm_num [kNumWindows] : ¬ ((0 : ℤ) ≥ (kNumWindows : ℤ) - 1))]
  norm_num

/-- Claim C3 (amended): at any integer morph index inside either bank the
morphed lookup equals the single-table lookup of that table, with zero
neighbour contribution; indices at or below −1 clamp to table 0 and indices at
or above N−1 clamp to table N−1; but an index strictly between −1 and 0 is NOT
clamped — truncation toward zero leaves `idx0 = 0` with a negative fractional
weight, so the lookup linearly extrapolates below table 0. -/
theorem C3_morph_lookup :
    (∀ (tables : ℕ → ℕ → ℚ) (k : ℕ) (phase : ℚ), k < kNumPulsarets →
        0 ≤ phase → phase < 1 →
        readTableMorph tables (k : ℚ) phase = readTableLerp (tables k) kTableSize phase) ∧
    (∀ (tables : ℕ → ℕ → ℚ) (k : ℕ) (phase : ℚ), k < kNumWindows →
        0 ≤ phase → phase < 1 →
        readWindowMorph tables (k : ℚ) phase = readTableLerp (tables k) kTableSize phase) ∧
    (∀ (tables : ℕ → ℕ → ℚ) (index phase : ℚ), index ≤ -1 →
        readTableMorph tables index phase = readTableLerp (tables 0) kTableSize phase) ∧
    (∀ (tables : ℕ → ℕ → ℚ) (index phase : ℚ), (kNumPulsarets : ℚ) - 1 ≤ index →
        readTableMorph tables index phase
          = readTableLerp (tables (kNumPulsarets - 1)) kTableSize phase) ∧
    (∀ (tables : ℕ → ℕ → ℚ) (index phase : ℚ), index ≤ -1 →
        readWindowMorph tables index phase = readTableLerp (tables 0) kTableSize phase) ∧
    (∀ (tables : ℕ → ℕ → ℚ) (index phase : ℚ), (kNumWindows : ℚ) - 1 ≤ index →
        readWindowMorph tables index phase
          = readTableLerp (tables (kNumWindows - 1)) kTableSize phase) ∧
    (∀ (tables : ℕ → ℕ → ℚ) (index phase : ℚ), -1 < index → index < 0 →
        readTableMorph tables index phase
          = readTableLerp (tables 0) kTableSize phase
            + index * (readTableLerp (tables 1) kTableSize phase
                - readTableLerp (tables 0) kTableSize phase)) ∧
    (∀ (tables : ℕ → ℕ → ℚ) (index phase : ℚ), -1 < index → index < 0 →
        readWindowMorph tables index phase
          = readTableLerp (tables 0) kTableSize phase
            + index * (readTableLerp (tables 1) kTableSize phase
                - readTableLerp (tables 0) kTableSize phase)) :=
  ⟨fun tables k phase hk _ _ => readTableMorph_intIndex tables k phase hk,
   fun tables k phase hk _ _ => readWindowMorph_intIndex tables k phase hk,
   fun tables index phase h => readTableMorph_clampLow tables index phase h,
   fun tables index phase h => readTableMorph_clampHigh tables index phase h,
   fun tables index phase h => readWindowMorph_clampLow tables index phase h,
   fun tables index phase h => readWindowMorph_clampHigh tables index phase h,
   fun tables index phase h1 h2 => readTableMorph_extrapolates tables index phase h1 h2,
   fun tables index phase h1 h2 => readWindowMorph_extrapolates tables index phase h1 h2⟩

/-- Claim C3, witness: integer-index exactness on the constant bank at
pulsaret index 3, phase `1/2`. -/
theorem C3_witness :
    (3 < kNumPulsarets ∧ (0 : ℚ) ≤ 1 / 2 ∧ (1 : ℚ) / 2 < 1) ∧
    readTableMorph constBank ((3 : ℕ) : ℚ) (1 / 2)
      = readTableLerp (constBank 3) kTableSize (1 / 2) :=
  ⟨⟨by norm_num [kNumPulsarets], by norm_num, by norm_num⟩,
    C3_morph_lookup.1 constBank 3 (1 / 2) (by norm_num [kNumPulsarets])
      (by norm_num) (by norm_num)⟩

/-- Constant-power pan angle (line 1096): `angle = (p + 1) * 0.25 * π`. -/
noncomputable def panAngle (p : ℝ) : ℝ := (p + 1) * (1 / 4) * Real.pi

/-- Left pan gain (line 1097): `panL = cos(angle)`. -/
noncomputable def panGainL (p : ℝ) : ℝ := Real.cos (panAngle p)

/-- Right pan gain (line 1098): `panR = sin(angle)`. -/
noncomputable def panGainR (p : ℝ) : ℝ := Real.sin (panAngle p)

/-- Claim C4: the per-formant stereo gains follow the constant-power law
`angle = (pan + 1)·π/4`, left `cos`, right `sin`, with unit total power; and
`pan = −1` gives `(1,0)`, `pan = 0` gives `L = R = √2/2 ≈ 0.7071`, `pan = +1`
gives `(0,1)`. -/
theorem C4_pan_law :
    (∀ p : ℝ, panGainL p = Real.cos ((p + 1) * Real.pi / 4) ∧
        panGainR p = Real.sin ((p + 1) * Real.pi / 4) ∧
        panGainL p ^ 2 + panGainR p ^ 2 = 1) ∧
    panGainL (-1) = 1 ∧ panGainR (-1) = 0 ∧
    panGainL 0 = panGainR 0 ∧ panGainL 0 = Real.sqrt 2 / 2 ∧
    |panGainL 0 - 7071 / 10000| < 1 / 10000 ∧
    panGainL 1 = 0 ∧ panGainR 1 = 1 := by
  have hang : ∀ p : ℝ, panAngle p = (p + 1) * Real.pi / 4 := by
    intro p
    rw [panAngle]
    ring
  have hm1 : panAngle (-1) = 0 := by rw [hang]; ring
  have h0 : panAngle 0 = Real.pi / 4 := by rw [hang]; ring
  have h1 : panAngle 1 = Real.pi / 2 := by rw [hang]; ring
  have hL0 : panGainL 0 = Real.sqrt 2 / 2 := by
    rw [panGainL, h0, Real.cos_pi_div_four]
  refine ⟨?_, ?_, ?_, ?_, hL0, ?_, ?_, ?_⟩
  · intro p
    exact ⟨by rw [panGainL, hang], by rw [panGainR, hang],
      by rw [panGainL, panGainR]; exact Real.cos_sq_add_sin_sq _⟩
  · rw [panGainL, hm1, Real.cos_zero]
  · rw [panGainR, hm1, Real.sin_zero]
  · rw [panGainL, panGainR, h0, Real.cos_pi_div_four, Real.sin_pi_div_four]
  · rw [hL0]
    have hs2 : Real.sqrt 2 ^ 2 = 2 := Real.sq_sqrt (by norm_num)
    have hsn : (0 : ℝ) ≤ Real.sqrt 2 := Real.sqrt_nonneg 2
    rw [abs_lt]
    constructor <;> nlinarith
  · rw [panGainL, h1, Real.cos_pi_div_two]
  · rw [panGainR, h1, Real.sin_pi_div_two]

/-- `coeffFromMs` (lines 336–342): one-pole coefficient from a time constant in
ms at sample rate `sr`; returns 0 when `ms ≤ 0` or when `samples = ms·sr/1000`
is under one sample, else `exp(−1/samples)`. -/
noncomputable def coeffFromMs (ms sr : ℚ) : ℝ :=
  if ms ≤ 0 then 0
  else if ms * sr * (1 / 1000) < 1 then 0
  else Real.exp (-1 / ((ms * sr * (1 / 1000) : ℚ) : ℝ))

/-- Per-sample glide recursion (lines 1146–1147):
`fundamental = target + coeff * (fundamental − target)`. -/
noncomputable def glideStep (fundamental target coeff : ℝ) : ℝ :=
  target + coeff * (fundamental - target)

/-- Claim C8: the glide coefficient is `exp(−1/(ms·sr/1000))` whenever `ms > 0`
and the time constant is at least one sample, and 0 (instant snap) when
`ms ≤ 0` or the time constant is under one sample; each sample the fundamental
is updated by the one-pole recursion toward the target. -/
theorem C8_glide_coefficient (ms sr : ℚ) (hms : 0 < ms)
    (hsamp : 1 ≤ ms * sr * (1 / 1000)) :
    coeffFromMs ms sr = Real.exp (-1 / ((ms * sr * (1 / 1000) : ℚ) : ℝ)) ∧
    (∀ ms' sr' : ℚ, ms' ≤ 0 → coeffFromMs ms' sr' = 0) ∧
    (∀ ms' sr' : ℚ, ms' * sr' * (1 / 1000) < 1 → coeffFromMs ms' sr' = 0) ∧
    (∀ fundamental target coeff : ℝ,
        glideStep fundamental target coeff = target + coeff * (fundamental - target)) := by
  refine ⟨?_, ?_, ?_, fun _ _ _ => rfl⟩
  · rw [coeffFromMs, if_neg (not_le.mpr hms), if_neg (not_lt.mpr hsamp)]
  · intro ms' sr' h
    rw [coeffFromMs, if_pos h]
  · intro ms' sr' h
    rw [coeffFromMs]
    split_ifs <;> rfl

/-- Claim C8, witness: `ms = 10`, `sr = 48000`, so `samples = 480` and the
coefficient is `exp(−1/480)`. -/
theorem C8_witness :
    ((0 : ℚ) < 10 ∧ (1 : ℚ) ≤ 10 * 48000 * (1 / 1000)) ∧
    coeffFromMs 10 48000 = Real.exp (-1 / ((10 * 48000 * (1 / 1000) : ℚ) : ℝ)) :=
  ⟨⟨by norm_num, by norm_num⟩,
    (C8_glide_coefficient 10 48000 (by norm_num) (by norm_num)).1⟩

end Pulsar
